import Mathlib

/-!
Verification of the BiteBase agentic-workflows orchestration core.

This file is a shallow embedding, in Lean 4, of the agent orchestration layer:

* `BaseAgent.run` from `src/backend/agents/base-agent.ts` (the `BaseAgent`
  class that the claims designate): the exclusive-use wrapper that races
  `process` against an optional timeout, converts every exception raised on
  the `process`/timeout path into a resolved `{success:false}` result, and
  throws only the "Agent is already running" busy error.
* `AgentOrchestrator` from `src/orchestration/orchestrator.ts`: config
  defaulting in the constructor, agent registration, analysis-type
  resolution, the per-agent retry loop, `Promise.all` fan-in, the three
  aggregation strategies, and the results cache.

Modelling conventions:
* JS `Map`s and plain objects used as dictionaries become association lists
  with `Map.set` semantics (`mapSet`: overwrite in place, append if fresh).
* Promises become `Except String` values: a rejected promise is `.error msg`.
  `Promise.all` is determinised to report the first rejection in list order.
* Wall-clock reads (`Date.now()`) are threaded explicitly: `now` is the
  clock at the start of a call and `durationMs` the elapsed time until the
  work settles, so the clock at the end is `now + durationMs`.
* `Record<string, any>` payloads are modelled as `List (String × String)`;
  no claim inspects the payload beyond emptiness and equality.
* The asynchronous `process` call of a concrete agent is abstracted by an
  oracle (`ProcessOutcome` per attempt): it either returns a result or
  raises an exception with a message; a separate oracle bit records whether
  the timeout race fired first.
-/

namespace AgenticWorkflows

/-- Agent kinds, from `AgentType` in `src/config/agent-config.ts`. -/
inductive AgentType where
  | market | insights | pricing | sales | sentiment | scraping | traffic | chat
deriving DecidableEq, Repr

/-- Requestable analysis kinds, from `AnalysisType` in `src/config/agent-config.ts`. -/
inductive AnalysisType where
  | market | insights | pricing | sales | sentiment | traffic | chat
deriving DecidableEq, Repr

/-- Aggregation strategies, from `ResultAggregationMethod`. -/
inductive ResultAggregationMethod where
  | simple | weighted | confidence
deriving DecidableEq, Repr

/-- Priority levels, from `PriorityLevel`. -/
inductive PriorityLevel where
  | low | medium | high | critical
deriving DecidableEq, Repr

/-- Open key/value payload (`Record<string, any>` in the source). -/
abbrev Data := List (String × String)

/-- `AgentResult` from `base-agent.ts`. `confidence` and `executionTime` are
JS numbers; we model them as rationals. `metadata` is an open payload. -/
structure AgentResult where
  success : Bool
  data : Data
  confidence : Rat
  executionTime : Rat
  metadata : Data
  error : Option String
deriving DecidableEq, Repr

/-- The input record built by `AgentOrchestrator.prepareAgentInput`. -/
structure AgentInput where
  projectId : String
  queryParams : Data
  confidenceThreshold : Rat
  priority : PriorityLevel
  timeout : Nat
deriving DecidableEq, Repr

/-- Outcome of one `process` invocation: the promise either fulfils with an
`AgentResult` or rejects with an exception carrying a message. -/
inductive ProcessOutcome where
  | ret (r : AgentResult)
  | exn (msg : String)
deriving DecidableEq, Repr

/-- One entry of `AgentMemory.conversationHistory`. -/
structure HistoryEntry where
  input : AgentInput
  output : AgentResult
  timestamp : Nat
deriving DecidableEq, Repr

/-- The slice of `AgentMemory.context` written by the base class
(`lastInput` / `lastOutput`; the source spreads an open map and only ever
writes these two keys from `BaseAgent`). -/
structure AgentContext where
  lastInput : Option AgentInput
  lastOutput : Option AgentResult
deriving DecidableEq, Repr

/-- `AgentMemory` from `base-agent.ts` (the `metadata` map is never written
by the base class and is left out). -/
structure AgentMemory where
  conversationHistory : List HistoryEntry
  context : AgentContext
  lastUpdate : Nat
deriving DecidableEq, Repr

/-- Mutable per-instance state of a `BaseAgent`. -/
structure AgentState where
  isRunning : Bool
  lastResult : Option AgentResult
  memory : AgentMemory
deriving DecidableEq, Repr

namespace BaseAgent

/-- `BaseAgent.updateMemory`: push to the history (capped at the last 50
entries via `slice(-50)`), record `lastInput`/`lastOutput`, bump `lastUpdate`. -/
def updateMemory (m : AgentMemory) (inputData : AgentInput) (result : AgentResult)
    (now : Nat) : AgentMemory :=
  let hist := m.conversationHistory ++ [⟨inputData, result, now⟩]
  let maxHistory := 50
  let hist := if hist.length > maxHistory then hist.drop (hist.length - maxHistory) else hist
  { conversationHistory := hist
    context := { lastInput := some inputData, lastOutput := some result }
    lastUpdate := now }

/-- The settled outcome of `Promise.race([process(input), timeoutPromise])`.
The race exists only when `timeout` is truthy (`if (timeout)` — both
`undefined` and `0` skip it); `timedOut` is the oracle saying the timer
rejected first, in which case the race rejects with `'Agent timeout'`. -/
def raceOutcome (timeout : Option Nat) (proc : ProcessOutcome) (timedOut : Bool) :
    ProcessOutcome :=
  if timeout.getD 0 ≠ 0 ∧ timedOut = true then .exn "Agent timeout" else proc

/-- `BaseAgent.run` from `base-agent.ts` lines 118–175. Throws (returns
`.error`) only via the busy guard; every exception on the `process`/timeout
path is caught and mapped to a resolved `{success:false}` result. The
`finally` block resets `isRunning`. `durationMs` is the wall-clock elapsed
between `startTime` and the settlement, so `executionTime` (seconds) is
`durationMs / 1000`. The source stores the result object in memory by
reference before mutating `executionTime`; we store the post-mutation value. -/
def run (st : AgentState) (inputData : AgentInput) (timeout : Option Nat)
    (proc : ProcessOutcome) (timedOut : Bool) (durationMs now : Nat) :
    AgentState × Except String AgentResult :=
  if st.isRunning then
    (st, .error "Agent is already running")
  else
    match raceOutcome timeout proc timedOut with
    | .ret r =>
        let r := { r with executionTime := (durationMs : Rat) / 1000 }
        ({ st with
            memory := updateMemory st.memory inputData r now
            lastResult := some r
            isRunning := false },
          .ok r)
    | .exn m =>
        let errorResult : AgentResult :=
          { success := false
            data := []
            confidence := 0
            executionTime := (durationMs : Rat) / 1000
            metadata := [("error", "true")]
            error := some m }
        ({ st with lastResult := some errorResult, isRunning := false },
          .ok errorResult)

end BaseAgent

/-- A fresh agent state: not running, nothing recorded yet. -/
def freshAgentState : AgentState :=
  { isRunning := false, lastResult := none
    memory := { conversationHistory := [], context := ⟨none, none⟩, lastUpdate := 0 } }

/-- An agent state whose previous `run` call has not yet settled. -/
def busyAgentState : AgentState :=
  { freshAgentState with isRunning := true }

/-- A sample prepared agent input. -/
def sampleInput : AgentInput :=
  { projectId := "p1", queryParams := [], confidenceThreshold := 7/10
    priority := .medium, timeout := 60 }

/-- A sample successful agent result. -/
def sampleResult : AgentResult :=
  { success := true, data := [("score", "0.8")], confidence := 9/10
    executionTime := 0, metadata := [], error := none }

/-- JS `Map.set` / object-key assignment on an association list: overwrite
the value in place if the key is present, append the binding otherwise. -/
def mapSet {α β : Type} [DecidableEq α] : List (α × β) → α → β → List (α × β)
  | [], k, v => [(k, v)]
  | (k', v') :: rest, k, v =>
      if k = k' then (k, v) :: rest else (k', v') :: mapSet rest k v

/-- JS `Map.get` / object-key lookup on an association list. -/
def mapGet {α β : Type} [DecidableEq α] : List (α × β) → α → Option β
  | [], _ => none
  | (k', v') :: rest, k => if k = k' then some v' else mapGet rest k

/-- The `switch (analysisType)` mapping in
`AgentOrchestrator.getRequiredAgents`: each requested analysis kind maps to
the same-named agent kind (the `default: continue` branch is unreachable for
well-typed `AnalysisType` values). -/
def analysisTypeToAgentType : AnalysisType → AgentType
  | .market => .market
  | .insights => .insights
  | .pricing => .pricing
  | .sales => .sales
  | .sentiment => .sentiment
  | .traffic => .traffic
  | .chat => .chat

/-- Behaviour oracle for one registered agent: `cfgType` is
`agent.getConfig().type`; for attempt `i` of a run, `busy i` is the
`isRunning` flag `run` observes, `outcomes i` how that attempt's `process`
promise settles, `timedOut i` whether the timeout race fired first, and
`durationMs i` the wall-clock the attempt took. -/
structure AgentBehavior where
  cfgType : Option AgentType
  busy : Nat → Bool
  outcomes : Nat → ProcessOutcome
  timedOut : Nat → Bool
  durationMs : Nat → Nat

/-- The settled value of attempt `i`'s `agent.run(input, timeout)` call.
`BaseAgent.run`'s Except outcome depends on the state only through
`isRunning`, so projecting the result away from the memory bookkeeping is
faithful. -/
def agentAttempt (ag : AgentBehavior) (input : AgentInput) (timeout : Option Nat)
    (now : Nat) (i : Nat) : Except String AgentResult :=
  (BaseAgent.run { freshAgentState with isRunning := ag.busy i } input timeout
      (ag.outcomes i) (ag.timedOut i) (ag.durationMs i) now).2

namespace AgentOrchestrator

/-- The loop body of `runAgentWithRetry` (orchestrator.ts lines 177–202),
with the remaining iteration count as fuel: for
`attempt = 0; attempt < maxRetries; attempt++` try the attempt, return its
value if it fulfils, remember the rejection otherwise (the flat
`agentTimeout` inter-attempt sleep is pure timing and is not modelled);
when the loop ends, throw the last error, or the fallback message if no
attempt ever ran. -/
def runAgentWithRetryGo (attempt : Nat → Except String AgentResult) :
    Nat → Nat → Option String → Except String AgentResult
  | 0, _, lastError => .error (lastError.getD "Agent execution failed after retries")
  | fuel + 1, i, _lastError =>
      match attempt i with
      | .ok r => .ok r
      | .error e => runAgentWithRetryGo attempt fuel (i + 1) (some e)

/-- `AgentOrchestrator.runAgentWithRetry`: at most `maxRetries` total
attempts, starting at attempt index 0 with no last error. -/
def runAgentWithRetry (maxRetries : Nat)
    (attempt : Nat → Except String AgentResult) : Except String AgentResult :=
  runAgentWithRetryGo attempt maxRetries 0 none

/-- The loop of `AgentOrchestrator.getRequiredAgents`, with the map built
so far as accumulator. -/
def getRequiredAgentsGo (agents : List (AgentType × AgentBehavior)) :
    List AnalysisType → List (AgentType × AgentBehavior) →
    List (AgentType × AgentBehavior)
  | [], acc => acc
  | ty :: tys, acc =>
      getRequiredAgentsGo agents tys
        (match mapGet agents (analysisTypeToAgentType ty) with
         | some agent => mapSet acc (analysisTypeToAgentType ty) agent
         | none => acc)

/-- `AgentOrchestrator.getRequiredAgents`: walk the requested kinds in
order, map each to an agent kind, and keep the registered agent when the
registry has one — unmapped kinds are skipped without error. -/
def getRequiredAgents (agents : List (AgentType × AgentBehavior))
    (analysisTypes : List AnalysisType) : List (AgentType × AgentBehavior) :=
  getRequiredAgentsGo agents analysisTypes []

/-- The loop of `AgentOrchestrator.simpleAggregation`, over the positionally
paired kinds and results, with the aggregate built so far as accumulator. -/
def simpleAggregationGo :
    List (AgentType × AgentResult) → List (AgentType × Data) →
    List (AgentType × Data)
  | [], acc => acc
  | p :: ps, acc =>
      simpleAggregationGo ps (if p.2.success then mapSet acc p.1 p.2.data else acc)

/-- `AgentOrchestrator.simpleAggregation`: for each position, copy `data`
into the aggregate under the agent's kind when that result succeeded. The
source indexes `results[i]` for `i < agentTypes.length`; every call site
passes lists of equal length, which the zip makes explicit. -/
def simpleAggregation (agentTypes : List AgentType) (results : List AgentResult) :
    List (AgentType × Data) :=
  simpleAggregationGo (agentTypes.zip results) []

/-- `AgentOrchestrator.weightedAggregation`: "In a real implementation, we
would apply weights based on agent importance" — delegates to simple. -/
def weightedAggregation (agentTypes : List AgentType) (results : List AgentResult) :
    List (AgentType × Data) :=
  simpleAggregation agentTypes results

/-- `AgentOrchestrator.confidenceAggregation`: delegates to simple. -/
def confidenceAggregation (agentTypes : List AgentType) (results : List AgentResult) :
    List (AgentType × Data) :=
  simpleAggregation agentTypes results

/-- `AgentOrchestrator.aggregateResults`: early-return `{}` when there are
no results, otherwise dispatch on the configured strategy (the `default`
switch branch coincides with `simple`). -/
def aggregateResults (method : ResultAggregationMethod)
    (agentTypes : List AgentType) (results : List AgentResult) :
    List (AgentType × Data) :=
  if results.length = 0 then []
  else
    match method with
    | .weighted => weightedAggregation agentTypes results
    | .confidence => confidenceAggregation agentTypes results
    | .simple => simpleAggregation agentTypes results

end AgentOrchestrator

/-- `OrchestrationConfig` from `src/config/agent-config.ts` (times in the
units the source uses: `agentTimeout` in ms, `cacheTTL` in seconds). -/
structure OrchestrationConfig where
  maxConcurrentAgents : Nat
  agentTimeout : Nat
  maxRetries : Nat
  resultAggregation : ResultAggregationMethod
  cacheEnabled : Bool
  cacheTTL : Nat
  priorityEnabled : Bool
  analyzeByDefault : List AnalysisType

/-- `Partial<OrchestrationConfig>`: every field optional. -/
structure PartialOrchestrationConfig where
  maxConcurrentAgents : Option Nat := none
  agentTimeout : Option Nat := none
  maxRetries : Option Nat := none
  resultAggregation : Option ResultAggregationMethod := none
  cacheEnabled : Option Bool := none
  cacheTTL : Option Nat := none
  priorityEnabled : Option Bool := none
  analyzeByDefault : Option (List AnalysisType) := none

/-- JS `x || d` on an optional number: `undefined` and the falsy `0` both
yield the default. -/
def jsOrNat (x : Option Nat) (d : Nat) : Nat :=
  match x with
  | none => d
  | some v => if v = 0 then d else v

namespace AgentOrchestrator

/-- The config-defaulting logic of the `AgentOrchestrator` constructor
(orchestrator.ts lines 19–36): numbers via `||` (so `0` falls back to the
default), the two booleans via an explicit `!== undefined` check, the enum
via `||` (every enum value is a truthy string), `analyzeByDefault` via `||`
(a present array, even empty, is truthy). -/
def mkConfig (config : PartialOrchestrationConfig) : OrchestrationConfig :=
  { maxConcurrentAgents := jsOrNat config.maxConcurrentAgents 5
    agentTimeout := jsOrNat config.agentTimeout 30000
    maxRetries := jsOrNat config.maxRetries 3
    resultAggregation := config.resultAggregation.getD .simple
    cacheEnabled := config.cacheEnabled.getD true
    cacheTTL := jsOrNat config.cacheTTL 3600
    priorityEnabled := config.priorityEnabled.getD true
    analyzeByDefault := config.analyzeByDefault.getD [] }

end AgentOrchestrator

/-- One entry of the orchestrator's `resultsCache`. -/
structure CacheEntry where
  results : List (AgentType × Data)
  timestamp : Nat
  expiresAt : Nat
deriving DecidableEq, Repr

/-- The mutable fields of an `AgentOrchestrator` instance that the claims
observe. The `runningTasks` map is set and deleted within the same
`runAnalysis` call and is not modelled. -/
structure OrchestratorState where
  config : OrchestrationConfig
  agents : List (AgentType × AgentBehavior)
  resultsCache : List (String × CacheEntry)

/-- `AnalysisRequest` from `src/api/models.ts` (`timeout` in seconds). -/
structure AnalysisRequest where
  projectId : String
  analysisTypes : List AnalysisType
  queryParams : Data
  confidenceThreshold : Rat
  priority : PriorityLevel
  timeout : Nat

/-- `AnalysisResponse.metadata` as built by `runAnalysis`. -/
structure ResponseMetadata where
  analysisId : String
  agentsUsed : List AgentType
  cacheTTL : Nat
deriving DecidableEq, Repr

/-- `AnalysisResponse` from `src/api/models.ts` (the ISO timestamp string is
modelled as the clock value it formats). -/
structure AnalysisResponse where
  success : Bool
  restaurantId : String
  analysisTypes : List AnalysisType
  timestamp : Nat
  executionTime : Rat
  results : List (AgentType × Data)
  metadata : ResponseMetadata
deriving DecidableEq, Repr

namespace AgentOrchestrator

/-- The generated analysis id: `` `analysis_${Date.now()}_${projectId}` ``. -/
def analysisIdOf (now : Nat) (projectId : String) : String :=
  "analysis_" ++ toString now ++ "_" ++ projectId

/-- `AgentOrchestrator.prepareAgentInput`. -/
def prepareAgentInput (request : AnalysisRequest) : AgentInput :=
  { projectId := request.projectId
    queryParams := request.queryParams
    confidenceThreshold := request.confidenceThreshold
    priority := request.priority
    timeout := request.timeout }

/-- `Promise.all` over already-created tasks, determinised to report the
first rejection in task order; it fulfils with the list of values exactly
when every task fulfils. -/
def promiseAll : List (Except String AgentResult) → Except String (List AgentResult)
  | [] => .ok []
  | .error e :: _ => .error e
  | .ok r :: xs =>
      match promiseAll xs with
      | .error e => .error e
      | .ok rs => .ok (r :: rs)

/-- `AgentOrchestrator.runAnalysis` (orchestrator.ts lines 86–175): resolve
the requested kinds, reject with the no-agents error when nothing resolves,
run every resolved agent through the retry loop against the shared
`request.timeout * 1000` budget, await them all, aggregate, cache the
aggregate when caching is enabled (the write happens at clock
`now + durationMs`, expiry `cacheTTL` seconds later), and build the
response. A rejection of any retry loop is rethrown by the catch block, the
state left unchanged (the transient `runningTasks` bookkeeping nets out and
is not modelled). -/
def runAnalysis (st : OrchestratorState) (request : AnalysisRequest)
    (now durationMs : Nat) : OrchestratorState × Except String AnalysisResponse :=
  let analysisId := analysisIdOf now request.projectId
  let requiredAgents := getRequiredAgents st.agents request.analysisTypes
  if requiredAgents.length = 0 then
    (st, .error "No suitable agents found for the requested analysis types")
  else
    let agentTypes := requiredAgents.map Prod.fst
    let tasks := requiredAgents.map fun p =>
      runAgentWithRetry st.config.maxRetries
        (agentAttempt p.2 (prepareAgentInput request) (some (request.timeout * 1000)) now)
    match promiseAll tasks with
    | .error e => (st, .error e)
    | .ok results =>
        let processedResults := aggregateResults st.config.resultAggregation agentTypes results
        let writeTime := now + durationMs
        let newCache :=
          if st.config.cacheEnabled then
            mapSet st.resultsCache analysisId
              { results := processedResults
                timestamp := writeTime
                expiresAt := writeTime + st.config.cacheTTL * 1000 }
          else st.resultsCache
        let response : AnalysisResponse :=
          { success := true
            restaurantId := request.projectId
            analysisTypes := request.analysisTypes
            timestamp := writeTime
            executionTime := (durationMs : Rat) / 1000
            results := processedResults
            metadata :=
              { analysisId := analysisId
                agentsUsed := agentTypes
                cacheTTL := if st.config.cacheEnabled then st.config.cacheTTL else 0 } }
        ({ st with resultsCache := newCache }, .ok response)

/-- The orchestrator state after a successful `runAnalysis` whose agents
settled with `rs` (abbreviates the success branch of `runAnalysis`). -/
def successState (st : OrchestratorState) (request : AnalysisRequest)
    (now durationMs : Nat) (rs : List AgentResult) : OrchestratorState :=
  { st with resultsCache :=
      (if st.config.cacheEnabled then
        (mapSet st.resultsCache (analysisIdOf now request.projectId)
          (⟨aggregateResults st.config.resultAggregation
              ((getRequiredAgents st.agents request.analysisTypes).map Prod.fst) rs,
            now + durationMs,
            now + durationMs + st.config.cacheTTL * 1000⟩ : CacheEntry))
      else st.resultsCache) }

/-- The response of a successful `runAnalysis` whose agents settled with
`rs` (abbreviates the success branch of `runAnalysis`). -/
def successResponse (st : OrchestratorState) (request : AnalysisRequest)
    (now durationMs : Nat) (rs : List AgentResult) : AnalysisResponse :=
  { success := true
    restaurantId := request.projectId
    analysisTypes := request.analysisTypes
    timestamp := now + durationMs
    executionTime := (durationMs : Rat) / 1000
    results := aggregateResults st.config.resultAggregation
        ((getRequiredAgents st.agents request.analysisTypes).map Prod.fst) rs
    metadata :=
      { analysisId := analysisIdOf now request.projectId
        agentsUsed := (getRequiredAgents st.agents request.analysisTypes).map Prod.fst
        cacheTTL := if st.config.cacheEnabled then st.config.cacheTTL else 0 } }

/-- `AgentOrchestrator.registerAgent`: refuse agents without a type, store
the rest keyed by their configured type (re-registration overwrites). -/
def registerAgent (st : OrchestratorState) (agent : AgentBehavior) : OrchestratorState :=
  match agent.cfgType with
  | none => st
  | some t => { st with agents := mapSet st.agents t agent }

/-- `AgentOrchestrator.cleanup`: after cleaning the agents, clear the
results cache (and the unmodelled `runningTasks` map). -/
def cleanup (st : OrchestratorState) : OrchestratorState :=
  { st with resultsCache := [] }

end AgentOrchestrator

/-- Fixture: an agent whose `process` rejects with `"boom"` on every
attempt (never busy, never timing out). -/
def alwaysThrowingAgent : AgentBehavior :=
  { cfgType := some .sentiment
    busy := fun _ => false
    outcomes := fun _ => .exn "boom"
    timedOut := fun _ => false
    durationMs := fun _ => 0 }

/-- Fixture: an agent whose `process` always fulfils with `sampleResult`. -/
def alwaysSucceedingAgent : AgentBehavior :=
  { cfgType := some .market
    busy := fun _ => false
    outcomes := fun _ => .ret sampleResult
    timedOut := fun _ => false
    durationMs := fun _ => 0 }

/-- Fixture: an agent whose busy guard fires on every attempt (its previous
`run` never settles within the retry window). -/
def alwaysBusyAgent : AgentBehavior :=
  { cfgType := some .sentiment
    busy := fun _ => true
    outcomes := fun _ => .ret sampleResult
    timedOut := fun _ => false
    durationMs := fun _ => 0 }

/-- Fixture: the constructor defaults, `new AgentOrchestrator({})`. -/
def defaultConfig : OrchestrationConfig :=
  AgentOrchestrator.mkConfig {}

/-- Fixture: a request for sentiment and market analysis. -/
def sampleRequest : AnalysisRequest :=
  { projectId := "p1"
    analysisTypes := [.sentiment, .market]
    queryParams := []
    confidenceThreshold := 7/10
    priority := .medium
    timeout := 60 }

/-- Fixture: a request for sentiment analysis only. -/
def sentimentRequest : AnalysisRequest :=
  { sampleRequest with analysisTypes := [.sentiment] }

/-- Fixture: orchestrator with a failing sentiment agent and a succeeding
market agent. -/
def mixedOrchestrator : OrchestratorState :=
  { config := defaultConfig
    agents := [(.sentiment, alwaysThrowingAgent), (.market, alwaysSucceedingAgent)]
    resultsCache := [] }

/-- Fixture: orchestrator whose sentiment agent is stuck busy while the
market agent succeeds. -/
def busyOrchestrator : OrchestratorState :=
  { mixedOrchestrator with
    agents := [(.sentiment, alwaysBusyAgent), (.market, alwaysSucceedingAgent)] }

/-- Fixture: orchestrator with no registered agents. -/
def emptyOrchestrator : OrchestratorState :=
  { mixedOrchestrator with agents := [] }

/-- Fixture: a request naming a kind with no registered agent (`pricing`)
next to a mapped one (`market`). -/
def unmappedRequest : AnalysisRequest :=
  { sampleRequest with analysisTypes := [.pricing, .market] }

/-- Fixture: orchestrator with only the succeeding market agent, caching
disabled. -/
def noCacheOrchestrator : OrchestratorState :=
  { config := { defaultConfig with cacheEnabled := false }
    agents := [(.market, alwaysSucceedingAgent)]
    resultsCache := [] }

/-- Fixture: an attempt sequence (as observed by the retry loop) that
rejects on the first three attempts and would fulfil from the fourth on. -/
def threeFailAttempts : Nat → Except String AgentResult := fun i =>
  if i < 3 then .error "boom" else .ok sampleResult

/-- Fixture: an attempt sequence that rejects on the first two attempts and
fulfils on the third. -/
def twoFailAttempts : Nat → Except String AgentResult := fun i =>
  if i < 2 then .error "boom" else .ok sampleResult

/-- Fixture: a partial config whose numeric fields are all present and 0. -/
def zeroPartialConfig : PartialOrchestrationConfig :=
  { maxConcurrentAgents := some 0
    agentTimeout := some 0
    maxRetries := some 0
    cacheTTL := some 0 }

section MapLemmas

variable {α β : Type} [DecidableEq α]

theorem mapGet_mapSet_self (l : List (α × β)) (k : α) (v : β) :
    mapGet (mapSet l k v) k = some v := by
  induction l with
  | nil => simp [mapSet, mapGet]
  | cons p rest ih =>
      obtain ⟨k', v'⟩ := p
      by_cases h : k = k'
      · simp [mapSet, mapGet, h]
      · simp [mapSet, mapGet, h, ih]

theorem mapGet_mapSet_ne (l : List (α × β)) {k k' : α} (v : β) (h : k' ≠ k) :
    mapGet (mapSet l k v) k' = mapGet l k' := by
  induction l with
  | nil => simp [mapSet, mapGet, h]
  | cons p rest ih =>
      obtain ⟨k₀, v₀⟩ := p
      by_cases hk : k = k₀
      · subst hk
        simp [mapSet, mapGet, h]
      · by_cases hk' : k' = k₀ <;> simp [mapSet, mapGet, hk, hk', ih]

theorem mapGet_mem {l : List (α × β)} {k : α} {v : β}
    (h : mapGet l k = some v) : (k, v) ∈ l := by
  induction l with
  | nil => simp [mapGet] at h
  | cons p rest ih =>
      obtain ⟨k₀, v₀⟩ := p
      by_cases hk : k = k₀
      · subst hk
        simp [mapGet] at h
        simp [h]
      · simp [mapGet, hk] at h
        exact List.mem_cons_of_mem _ (ih h)

theorem exists_mapGet_of_mem_keys {l : List (α × β)} {k : α}
    (h : k ∈ l.map Prod.fst) : ∃ v, mapGet l k = some v := by
  induction l with
  | nil => simp at h
  | cons p rest ih =>
      obtain ⟨k₀, v₀⟩ := p
      by_cases hk : k = k₀
      · exact ⟨v₀, by simp [mapGet, hk]⟩
      · simp [hk] at h
        obtain ⟨x, hx⟩ := h
        have hrest : k ∈ rest.map Prod.fst := List.mem_map.mpr ⟨(k, x), hx, rfl⟩
        simpa [mapGet, hk] using ih hrest

theorem not_mem_keys_of_mapGet_eq_none {l : List (α × β)} {k : α}
    (h : mapGet l k = none) : k ∉ l.map Prod.fst := by
  intro hmem
  obtain ⟨v, hv⟩ := exists_mapGet_of_mem_keys hmem
  rw [h] at hv
  exact Option.noConfusion hv

theorem mem_mapSet {l : List (α × β)} {k : α} {v : β} {p : α × β}
    (h : p ∈ mapSet l k v) : p ∈ l ∨ p = (k, v) := by
  induction l with
  | nil => simpa [mapSet, or_comm] using h
  | cons q rest ih =>
      obtain ⟨k₀, v₀⟩ := q
      by_cases hk : k = k₀
      · subst hk
        simp [mapSet] at h
        rcases h with h | h
        · exact Or.inr (by simp [h])
        · exact Or.inl (List.mem_cons_of_mem _ h)
      · simp [mapSet, hk] at h
        rcases h with h | h
        · exact Or.inl (by simp [h])
        · rcases ih h with h' | h'
          · exact Or.inl (List.mem_cons_of_mem _ h')
          · exact Or.inr h'

theorem mem_keys_mapSet_of_mem_keys {l : List (α × β)} {k k' : α} (v : β)
    (h : k' ∈ l.map Prod.fst) : k' ∈ (mapSet l k v).map Prod.fst := by
  by_cases hk : k' = k
  · subst hk
    exact List.mem_map.mpr ⟨(k', v), mapGet_mem (mapGet_mapSet_self l k' v), rfl⟩
  · obtain ⟨w, hw⟩ := exists_mapGet_of_mem_keys h
    have heq := mapGet_mapSet_ne l v hk
    rw [hw] at heq
    exact List.mem_map.mpr ⟨(k', w), mapGet_mem heq, rfl⟩

theorem mem_keys_of_mem_keys_mapSet {l : List (α × β)} {k k' : α} {v : β}
    (h : k' ∈ (mapSet l k v).map Prod.fst) : k' = k ∨ k' ∈ l.map Prod.fst := by
  obtain ⟨p, hp, hfst⟩ := List.mem_map.mp h
  rcases mem_mapSet hp with h' | h'
  · exact Or.inr (List.mem_map.mpr ⟨p, h', hfst⟩)
  · subst h'
    exact Or.inl hfst.symm

theorem nodup_keys_mapSet {l : List (α × β)} (k : α) (v : β)
    (h : (l.map Prod.fst).Nodup) : ((mapSet l k v).map Prod.fst).Nodup := by
  induction l with
  | nil => simp [mapSet]
  | cons p rest ih =>
      obtain ⟨k₀, v₀⟩ := p
      rw [List.map_cons, List.nodup_cons] at h
      by_cases hk : k = k₀
      · subst hk
        have heq : mapSet ((k, v₀) :: rest) k v = (k, v) :: rest := by
          simp [mapSet]
        rw [heq, List.map_cons, List.nodup_cons]
        exact h
      · have h1 : k₀ ∉ (mapSet rest k v).map Prod.fst := by
          intro hmem
          rcases mem_keys_of_mem_keys_mapSet hmem with h' | h'
          · exact hk h'.symm
          · exact h.1 h'
        have heq : mapSet ((k₀, v₀) :: rest) k v = (k₀, v₀) :: mapSet rest k v := by
          simp [mapSet, hk]
        rw [heq, List.map_cons, List.nodup_cons]
        exact ⟨h1, ih h.2⟩

theorem length_mapSet_of_not_mem_keys {l : List (α × β)} {k : α} (v : β)
    (h : k ∉ l.map Prod.fst) : (mapSet l k v).length = l.length + 1 := by
  induction l with
  | nil => simp [mapSet]
  | cons p rest ih =>
      obtain ⟨k₀, v₀⟩ := p
      have hne : k ≠ k₀ := by
        intro hkk
        exact h (by simp [hkk])
      have hrest : k ∉ rest.map Prod.fst := fun hm => h (by simp [hm])
      simp [mapSet, hne, ih hrest]

end MapLemmas

section ResolutionLemmas

open AgentOrchestrator

theorem getRequiredAgentsGo_preserve (agents : List (AgentType × AgentBehavior))
    {k : AgentType} {v : AgentBehavior} (hreg : mapGet agents k = some v) :
    ∀ (tys : List AnalysisType) (acc : List (AgentType × AgentBehavior)),
      mapGet acc k = some v →
      mapGet (getRequiredAgentsGo agents tys acc) k = some v := by
  intro tys
  induction tys with
  | nil => intro acc hacc; simpa [getRequiredAgentsGo] using hacc
  | cons ty tys ih =>
      intro acc hacc
      rw [getRequiredAgentsGo]
      cases hl : mapGet agents (analysisTypeToAgentType ty) with
      | none => exact ih acc hacc
      | some a =>
          by_cases hk : analysisTypeToAgentType ty = k
          · subst hk
            rw [hl] at hreg
            injection hreg with hav
            subst hav
            exact ih _ (mapGet_mapSet_self acc _ a)
          · refine ih _ ?_
            rw [mapGet_mapSet_ne acc a (fun h => hk h.symm)]
            exact hacc

theorem getRequiredAgentsGo_hit (agents : List (AgentType × AgentBehavior))
    {ty : AnalysisType} {v : AgentBehavior}
    (hreg : mapGet agents (analysisTypeToAgentType ty) = some v) :
    ∀ (tys : List AnalysisType) (acc : List (AgentType × AgentBehavior)),
      ty ∈ tys →
      mapGet (getRequiredAgentsGo agents tys acc) (analysisTypeToAgentType ty) = some v := by
  intro tys
  induction tys with
  | nil => intro acc h; simp at h
  | cons ty' tys ih =>
      intro acc hmem
      rw [getRequiredAgentsGo]
      rcases List.mem_cons.mp hmem with heq | hmem'
      · subst heq
        rw [hreg]
        exact getRequiredAgentsGo_preserve agents hreg tys _ (mapGet_mapSet_self acc _ v)
      · cases hl : mapGet agents (analysisTypeToAgentType ty') with
        | none => exact ih acc hmem'
        | some a => exact ih _ hmem'

theorem getRequiredAgentsGo_none (agents : List (AgentType × AgentBehavior))
    {k : AgentType} (hreg : mapGet agents k = none) :
    ∀ (tys : List AnalysisType) (acc : List (AgentType × AgentBehavior)),
      mapGet (getRequiredAgentsGo agents tys acc) k = mapGet acc k := by
  intro tys
  induction tys with
  | nil => intro acc; simp [getRequiredAgentsGo]
  | cons ty tys ih =>
      intro acc
      rw [getRequiredAgentsGo]
      cases hl : mapGet agents (analysisTypeToAgentType ty) with
      | none => exact ih acc
      | some a =>
          have hk : k ≠ analysisTypeToAgentType ty := by
            intro h
            rw [h, hl] at hreg
            exact Option.noConfusion hreg
          rw [ih _, mapGet_mapSet_ne acc a hk]

theorem getRequiredAgentsGo_entries (agents : List (AgentType × AgentBehavior)) :
    ∀ (tys : List AnalysisType) (acc : List (AgentType × AgentBehavior))
      (p : AgentType × AgentBehavior),
      p ∈ getRequiredAgentsGo agents tys acc →
      p ∈ acc ∨ mapGet agents p.1 = some p.2 := by
  intro tys
  induction tys with
  | nil => intro acc p hp; exact Or.inl (by simpa [getRequiredAgentsGo] using hp)
  | cons ty tys ih =>
      intro acc p hp
      rw [getRequiredAgentsGo] at hp
      cases hl : mapGet agents (analysisTypeToAgentType ty) with
      | none =>
          rw [hl] at hp
          exact ih acc p hp
      | some a =>
          rw [hl] at hp
          rcases ih _ p hp with h' | h'
          · rcases mem_mapSet h' with h'' | h''
            · exact Or.inl h''
            · subst h''
              exact Or.inr hl
          · exact Or.inr h'

theorem getRequiredAgentsGo_nodup (agents : List (AgentType × AgentBehavior)) :
    ∀ (tys : List AnalysisType) (acc : List (AgentType × AgentBehavior)),
      (acc.map Prod.fst).Nodup →
      ((getRequiredAgentsGo agents tys acc).map Prod.fst).Nodup := by
  intro tys
  induction tys with
  | nil => intro acc h; simpa [getRequiredAgentsGo] using h
  | cons ty tys ih =>
      intro acc h
      rw [getRequiredAgentsGo]
      cases hl : mapGet agents (analysisTypeToAgentType ty) with
      | none => exact ih acc h
      | some a => exact ih _ (nodup_keys_mapSet _ a h)

end ResolutionLemmas

section RetryLemmas

open AgentOrchestrator

theorem runAgentWithRetryGo_error_shape (attempt : Nat → Except String AgentResult) :
    ∀ (fuel i : Nat) (le : Option String) (e : String),
      runAgentWithRetryGo attempt fuel i le = .error e →
      (∃ j, attempt j = .error e) ∨ le = some e ∨
        e = "Agent execution failed after retries" := by
  intro fuel
  induction fuel with
  | zero =>
      intro i le e h
      rw [runAgentWithRetryGo] at h
      cases le with
      | none =>
          simp [Option.getD] at h
          exact Or.inr (Or.inr h.symm)
      | some x =>
          simp [Option.getD] at h
          exact Or.inr (Or.inl (by rw [h]))
  | succ n ih =>
      intro i le e h
      rw [runAgentWithRetryGo] at h
      cases ha : attempt i with
      | ok r => rw [ha] at h; exact Except.noConfusion h
      | error e' =>
          rw [ha] at h
          rcases ih (i + 1) (some e') e h with h' | h' | h'
          · exact Or.inl h'
          · cases h'
            exact Or.inl ⟨i, ha⟩
          · exact Or.inr (Or.inr h')

theorem runAgentWithRetry_first_ok {attempt : Nat → Except String AgentResult}
    {r : AgentResult} (h0 : attempt 0 = .ok r) {mr : Nat} (hmr : 0 < mr) :
    runAgentWithRetry mr attempt = .ok r := by
  cases mr with
  | zero => omega
  | succ n =>
      rw [runAgentWithRetry, runAgentWithRetryGo, h0]

theorem runAgentWithRetryGo_budget (attempt : Nat → Except String AgentResult) :
    ∀ (fuel i : Nat) (le : Option String) (k : Nat) (r : AgentResult),
      k < fuel →
      (∀ j, j < k → ∃ e, attempt (i + j) = .error e) →
      attempt (i + k) = .ok r →
      runAgentWithRetryGo attempt fuel i le = .ok r := by
  intro fuel
  induction fuel with
  | zero => intro i le k r hk; omega
  | succ n ih =>
      intro i le k r hk hfail hok
      cases k with
      | zero =>
          rw [runAgentWithRetryGo]
          rw [show i + 0 = i from rfl] at hok
          rw [hok]
      | succ k' =>
          obtain ⟨e, he⟩ := hfail 0 (Nat.succ_pos k')
          rw [show i + 0 = i from rfl] at he
          rw [runAgentWithRetryGo, he]
          refine ih (i + 1) (some e) k' r (by omega) ?_ ?_
          · intro j hj
            obtain ⟨e', he'⟩ := hfail (j + 1) (by omega)
            exact ⟨e', by rwa [show i + (j + 1) = i + 1 + j by omega] at he'⟩
          · rwa [show i + (k' + 1) = i + 1 + k' by omega] at hok

theorem runAgentWithRetryGo_all_error {attempt : Nat → Except String AgentResult}
    {e : String} (h : ∀ i, attempt i = .error e) :
    ∀ (fuel i : Nat) (le : Option String), 0 < fuel →
      runAgentWithRetryGo attempt fuel i le = .error e := by
  intro fuel
  induction fuel with
  | zero => intro i le hf; omega
  | succ n ih =>
      intro i le _
      rw [runAgentWithRetryGo, h i]
      show runAgentWithRetryGo attempt n (i + 1) (some e) = .error e
      cases n with
      | zero => rfl
      | succ m => exact ih (i + 1) (some e) (Nat.succ_pos m)

theorem runAgentWithRetryGo_dichotomy {attempt : Nat → Except String AgentResult}
    {m : String} (hatt : ∀ i e, attempt i = .error e → e = m) :
    ∀ (fuel i : Nat) (le : Option String), 0 < fuel →
      runAgentWithRetryGo attempt fuel i le = .error m ∨
        ∃ r, runAgentWithRetryGo attempt fuel i le = .ok r := by
  intro fuel
  induction fuel with
  | zero => intro i le hf; omega
  | succ n ih =>
      intro i le _
      cases ha : attempt i with
      | ok r => exact Or.inr ⟨r, by rw [runAgentWithRetryGo, ha]⟩
      | error e =>
          have hm := hatt i e ha
          subst hm
          have heq : runAgentWithRetryGo attempt (n + 1) i le =
              runAgentWithRetryGo attempt n (i + 1) (some e) := by
            rw [runAgentWithRetryGo, ha]
          rw [heq]
          cases n with
          | zero => exact Or.inl rfl
          | succ nn => exact ih (i + 1) (some e) (Nat.succ_pos nn)

end RetryLemmas

section AttemptLemmas

theorem agentAttempt_ok_of_not_busy {ag : AgentBehavior} (input : AgentInput)
    (t : Option Nat) (now : Nat) {i : Nat} (h : ag.busy i = false) :
    ∃ r, agentAttempt ag input t now i = .ok r := by
  rw [agentAttempt, BaseAgent.run]
  simp only [h]
  cases BaseAgent.raceOutcome t (ag.outcomes i) (ag.timedOut i) with
  | ret r => exact ⟨_, rfl⟩
  | exn m => exact ⟨_, rfl⟩

theorem agentAttempt_ok_value {ag : AgentBehavior} {input : AgentInput}
    {t : Option Nat} {now i : Nat} {r : AgentResult} (hb : ag.busy i = false)
    (ht : ag.timedOut i = false) (ho : ag.outcomes i = .ret r) :
    agentAttempt ag input t now i =
      .ok { r with executionTime := (ag.durationMs i : Rat) / 1000 } := by
  rw [agentAttempt, BaseAgent.run]
  simp only [hb, BaseAgent.raceOutcome, ht, ho]
  simp

theorem agentAttempt_busy_value {ag : AgentBehavior} {input : AgentInput}
    {t : Option Nat} {now i : Nat} (hb : ag.busy i = true) :
    agentAttempt ag input t now i = .error "Agent is already running" := by
  rw [agentAttempt, BaseAgent.run]
  simp [hb]

theorem agentAttempt_error_busy {ag : AgentBehavior} {input : AgentInput}
    {t : Option Nat} {now i : Nat} {e : String}
    (h : agentAttempt ag input t now i = .error e) :
    e = "Agent is already running" ∧ ag.busy i = true := by
  by_cases hb : ag.busy i
  · rw [agentAttempt_busy_value hb] at h
    injection h with he
    exact ⟨he.symm, hb⟩
  · have hb' : ag.busy i = false := by simpa using hb
    obtain ⟨r, hr⟩ := agentAttempt_ok_of_not_busy input t now hb'
    rw [hr] at h
    exact Except.noConfusion h

end AttemptLemmas

section PromiseLemmas

open AgentOrchestrator

theorem promiseAll_ok {l : List (Except String AgentResult)}
    (h : ∀ x ∈ l, ∃ r, x = .ok r) :
    ∃ rs, promiseAll l = .ok rs ∧
      List.Forall₂ (fun x r => x = Except.ok r) l rs := by
  induction l with
  | nil => exact ⟨[], rfl, List.Forall₂.nil⟩
  | cons x xs ih =>
      obtain ⟨r, hr⟩ := h x (List.mem_cons_self x xs)
      obtain ⟨rs, hps, hf⟩ := ih fun y hy => h y (List.mem_cons_of_mem _ hy)
      subst hr
      exact ⟨r :: rs, by rw [promiseAll, hps], List.Forall₂.cons rfl hf⟩

theorem promiseAll_error_mem {l : List (Except String AgentResult)} {e : String}
    (h : promiseAll l = .error e) : Except.error e ∈ l := by
  induction l with
  | nil => exact Except.noConfusion h
  | cons x xs ih =>
      cases x with
      | error e' =>
          rw [promiseAll] at h
          injection h with he
          rw [he]
          exact List.mem_cons_self _ _
      | ok r =>
          rw [promiseAll] at h
          cases hps : promiseAll xs with
          | error e' =>
              simp only [hps] at h
              injection h with he
              subst he
              exact List.mem_cons_of_mem _ (ih hps)
          | ok rs =>
              simp only [hps] at h
              exact Except.noConfusion h

theorem promiseAll_error_of_mem {l : List (Except String AgentResult)} {e : String}
    (hmem : Except.error e ∈ l)
    (hall : ∀ x ∈ l, x = Except.error e ∨ ∃ r, x = .ok r) :
    promiseAll l = .error e := by
  induction l with
  | nil => simp at hmem
  | cons x xs ih =>
      rcases hall x (List.mem_cons_self x xs) with hx | ⟨r, hx⟩
      · subst hx
        rw [promiseAll]
      · subst hx
        have hmem' : Except.error e ∈ xs := by
          rcases List.mem_cons.mp hmem with h' | h'
          · exact Except.noConfusion h'
          · exact h'
        rw [promiseAll, ih hmem' fun y hy => hall y (List.mem_cons_of_mem _ hy)]

theorem forall₂_mem_zip {γ δ : Type} {R : γ → δ → Prop} :
    ∀ {l₁ : List γ} {l₂ : List δ}, List.Forall₂ R l₁ l₂ →
      ∀ {a}, a ∈ l₁ → ∃ b, R a b ∧ (a, b) ∈ l₁.zip l₂ := by
  intro l₁ l₂ h
  induction h with
  | nil => intro a ha; simp at ha
  | @cons x y xs ys hR _ ih =>
      intro a ha
      rcases List.mem_cons.mp ha with heq | ha'
      · subst heq
        exact ⟨y, hR, by simp⟩
      · obtain ⟨b, hb, hzb⟩ := ih ha'
        exact ⟨b, hb, by simp [hzb]⟩

end PromiseLemmas

section AggregationLemmas

open AgentOrchestrator

theorem simpleAggregationGo_absent {pairs : List (AgentType × AgentResult)}
    {k : AgentType} (h : k ∉ pairs.map Prod.fst) :
    ∀ acc, mapGet (simpleAggregationGo pairs acc) k = mapGet acc k := by
  induction pairs with
  | nil => intro acc; rw [simpleAggregationGo]
  | cons p ps ih =>
      intro acc
      have hk : k ≠ p.1 := by
        intro hkk
        exact h (by simp [hkk])
      have hps : k ∉ ps.map Prod.fst := fun hm => h (by simp [hm])
      rw [simpleAggregationGo, ih hps]
      by_cases hs : p.2.success
      · rw [if_pos hs, mapGet_mapSet_ne acc _ hk]
      · rw [if_neg hs]

theorem simpleAggregationGo_hit {pairs : List (AgentType × AgentResult)}
    (hnd : (pairs.map Prod.fst).Nodup) {k : AgentType} {r : AgentResult}
    (hmem : (k, r) ∈ pairs) (hs : r.success = true) :
    ∀ acc, mapGet (simpleAggregationGo pairs acc) k = some r.data := by
  induction pairs with
  | nil => simp at hmem
  | cons p ps ih =>
      intro acc
      rw [List.map_cons, List.nodup_cons] at hnd
      rcases List.mem_cons.mp hmem with heq | hmem'
      · subst heq
        rw [simpleAggregationGo, if_pos hs,
          simpleAggregationGo_absent (by simpa using hnd.1) _,
          mapGet_mapSet_self]
      · exact ih hnd.2 hmem' _

theorem aggregateResults_eq_simple (m : ResultAggregationMethod)
    (types : List AgentType) (results : List AgentResult) :
    aggregateResults m types results = simpleAggregation types results := by
  cases results with
  | nil =>
      unfold aggregateResults
      cases types <;> simp [simpleAggregation, simpleAggregationGo]
  | cons r rs =>
      unfold aggregateResults
      simp only [List.length_cons]
      rw [if_neg (by omega)]
      cases m <;> rfl

end AggregationLemmas

section RunAnalysisLemmas

open AgentOrchestrator

theorem tasks_all_ok (st : OrchestratorState) (req : AnalysisRequest) (now : Nat)
    (hmr : 0 < st.config.maxRetries)
    (hfresh : ∀ p ∈ st.agents, p.2.busy 0 = false) :
    ∀ x ∈ (getRequiredAgents st.agents req.analysisTypes).map fun p =>
        runAgentWithRetry st.config.maxRetries
          (agentAttempt p.2 (prepareAgentInput req) (some (req.timeout * 1000)) now),
      ∃ r, x = .ok r := by
  intro x hx
  obtain ⟨p, hp, hxp⟩ := List.mem_map.mp hx
  rcases getRequiredAgentsGo_entries st.agents req.analysisTypes [] p hp with habs | hget
  · simp at habs
  · have hb : p.2.busy 0 = false := hfresh (p.1, p.2) (mapGet_mem hget)
    obtain ⟨r, hr⟩ := agentAttempt_ok_of_not_busy
      (prepareAgentInput req) (some (req.timeout * 1000)) now hb
    exact ⟨r, by rw [← hxp]; exact runAgentWithRetry_first_ok hr hmr⟩

theorem runAnalysis_fresh_ok (st : OrchestratorState) (req : AnalysisRequest)
    (now dur : Nat)
    (hmr : 0 < st.config.maxRetries)
    (hfresh : ∀ p ∈ st.agents, p.2.busy 0 = false)
    (hne : getRequiredAgents st.agents req.analysisTypes ≠ []) :
    ∃ rs resp st',
      List.Forall₂
        (fun p r =>
          runAgentWithRetry st.config.maxRetries
            (agentAttempt p.2 (prepareAgentInput req) (some (req.timeout * 1000)) now) =
            Except.ok r)
        (getRequiredAgents st.agents req.analysisTypes) rs ∧
      runAnalysis st req now dur = (st', Except.ok resp) ∧
      resp.success = true ∧
      resp.results =
        simpleAggregation ((getRequiredAgents st.agents req.analysisTypes).map Prod.fst) rs := by
  obtain ⟨rs, hps, hf⟩ := promiseAll_ok (tasks_all_ok st req now hmr hfresh)
  have hf' := List.forall₂_map_left_iff.mp hf
  have h0 : ¬ (getRequiredAgents st.agents req.analysisTypes).length = 0 := by
    simpa [List.length_eq_zero] using hne
  have hrun :
      runAnalysis st req now dur =
        ({ st with resultsCache :=
            (if st.config.cacheEnabled then
              (mapSet st.resultsCache (analysisIdOf now req.projectId)
                (⟨aggregateResults st.config.resultAggregation
                    ((getRequiredAgents st.agents req.analysisTypes).map Prod.fst) rs,
                  now + dur,
                  now + dur + st.config.cacheTTL * 1000⟩ : CacheEntry))
             else st.resultsCache) },
          Except.ok
            (⟨true, req.projectId, req.analysisTypes, now + dur, (dur : Rat) / 1000,
              aggregateResults st.config.resultAggregation
                ((getRequiredAgents st.agents req.analysisTypes).map Prod.fst) rs,
              ⟨analysisIdOf now req.projectId,
                (getRequiredAgents st.agents req.analysisTypes).map Prod.fst,
                (if st.config.cacheEnabled then st.config.cacheTTL else 0)⟩⟩ :
              AnalysisResponse)) := by
    simp only [runAnalysis]
    rw [if_neg h0]
    rw [hps]
  exact ⟨rs, _, _, hf', hrun, rfl, aggregateResults_eq_simple _ _ _⟩

theorem runAnalysis_cases (st : OrchestratorState) (req : AnalysisRequest)
    (now dur : Nat) :
    (getRequiredAgents st.agents req.analysisTypes = [] ∧
      runAnalysis st req now dur =
        (st, .error "No suitable agents found for the requested analysis types")) ∨
    (∃ e, runAnalysis st req now dur = (st, Except.error e)) ∨
    (∃ rs, runAnalysis st req now dur =
      (successState st req now dur rs, Except.ok (successResponse st req now dur rs))) := by
  by_cases h0 : (getRequiredAgents st.agents req.analysisTypes).length = 0
  · refine Or.inl ⟨List.length_eq_zero.mp h0, ?_⟩
    simp only [runAnalysis]
    rw [if_pos h0]
  · cases hps : promiseAll ((getRequiredAgents st.agents req.analysisTypes).map fun p =>
        runAgentWithRetry st.config.maxRetries
          (agentAttempt p.2 (prepareAgentInput req) (some (req.timeout * 1000)) now)) with
    | error e =>
        refine Or.inr (Or.inl ⟨e, ?_⟩)
        simp only [runAnalysis]
        rw [if_neg h0, hps]
    | ok rs =>
        refine Or.inr (Or.inr ⟨rs, ?_⟩)
        simp only [runAnalysis]
        rw [if_neg h0, hps]
        rfl

end RunAnalysisLemmas

/-- C3: on every exception path inside `process` — including the timeout
race rejecting — `run` resolves (does not reject) with a result whose
`success` is `false`, whose `data` is the empty map and whose `error` equals
the exception's message; and whenever the agent is not busy, no exception
escapes `run` at all. -/
theorem run_wraps_exceptions (st : AgentState) (inputData : AgentInput)
    (timeout : Option Nat) (proc : ProcessOutcome) (timedOut : Bool)
    (durationMs now : Nat) (m : String)
    (hfree : st.isRunning = false) :
    (BaseAgent.raceOutcome timeout proc timedOut = .exn m →
      (BaseAgent.run st inputData timeout proc timedOut durationMs now).2 =
        .ok { success := false, data := [], confidence := 0,
              executionTime := (durationMs : Rat) / 1000,
              metadata := [("error", "true")], error := some m }) ∧
    (∃ r, (BaseAgent.run st inputData timeout proc timedOut durationMs now).2 = .ok r) := by
  constructor
  · intro hexn
    simp [BaseAgent.run, hfree, hexn]
  · unfold BaseAgent.run
    rw [hfree]
    cases BaseAgent.raceOutcome timeout proc timedOut <;> simp

/-- Witness for `run_wraps_exceptions`: a concrete non-busy agent whose
`process` rejects with message `"boom"`. -/
theorem run_wraps_exceptions_witness :
    freshAgentState.isRunning = false ∧
    ((BaseAgent.raceOutcome none (.exn "boom") false = .exn "boom" →
      (BaseAgent.run freshAgentState sampleInput none (.exn "boom") false 0 0).2 =
        .ok { success := false, data := [], confidence := 0,
              executionTime := (0 : Rat) / 1000,
              metadata := [("error", "true")], error := some "boom" }) ∧
    (∃ r, (BaseAgent.run freshAgentState sampleInput none (.exn "boom") false 0 0).2 = .ok r)) :=
  ⟨rfl, run_wraps_exceptions _ _ _ _ _ _ _ "boom" rfl⟩

/-- C4: invoking `run` while the same instance's previous call has not yet
settled fails fast with the busy error: whatever `process` would do and
however the timeout race would resolve, the call throws
`'Agent is already running'` immediately and leaves the state untouched. -/
theorem run_busy_fails_fast (st : AgentState) (inputData : AgentInput)
    (timeout : Option Nat) (proc : ProcessOutcome) (timedOut : Bool)
    (durationMs now : Nat)
    (hbusy : st.isRunning = true) :
    BaseAgent.run st inputData timeout proc timedOut durationMs now =
      (st, .error "Agent is already running") := by
  simp [BaseAgent.run, hbusy]

/-- Witness for `run_busy_fails_fast`: a concrete busy agent. -/
theorem run_busy_fails_fast_witness :
    busyAgentState.isRunning = true ∧
    BaseAgent.run busyAgentState sampleInput none (.ret sampleResult) false 0 0 =
      (busyAgentState, .error "Agent is already running") :=
  ⟨rfl, run_busy_fails_fast _ _ _ _ _ _ _ rfl⟩

section ClaimTheorems

open AgentOrchestrator

/-- C5: a request whose analysis types resolve to zero registered Agents
makes `runAnalysis` reject with the no-suitable-agents error (state
untouched); and whenever at least one Agent resolves, `runAnalysis` never
rejects for that reason — any rejection it produces carries a different
error. -/
theorem runAnalysis_no_agents (st : OrchestratorState) (req : AnalysisRequest)
    (now dur : Nat) :
    (getRequiredAgents st.agents req.analysisTypes = [] →
      runAnalysis st req now dur =
        (st, .error "No suitable agents found for the requested analysis types")) ∧
    (getRequiredAgents st.agents req.analysisTypes ≠ [] →
      ∀ st' e, runAnalysis st req now dur = (st', Except.error e) →
        e ≠ "No suitable agents found for the requested analysis types") := by
  constructor
  · intro h
    simp only [runAnalysis]
    rw [if_pos (by rw [h]; rfl)]
  · intro hne st' e heq
    have h0 : ¬ (getRequiredAgents st.agents req.analysisTypes).length = 0 := by
      simpa [List.length_eq_zero] using hne
    simp only [runAnalysis] at heq
    rw [if_neg h0] at heq
    cases hps : promiseAll ((getRequiredAgents st.agents req.analysisTypes).map fun p =>
        runAgentWithRetry st.config.maxRetries
          (agentAttempt p.2 (prepareAgentInput req) (some (req.timeout * 1000)) now)) with
    | ok rs =>
        rw [hps] at heq
        exact absurd (congrArg Prod.snd heq) (by simp)
    | error e' =>
        rw [hps] at heq
        have h2 : Except.error (ε := String) (α := AnalysisResponse) e' = .error e :=
          congrArg Prod.snd heq
        injection h2 with h2
        subst h2
        obtain ⟨p, _, htask⟩ := List.mem_map.mp (promiseAll_error_mem hps)
        have htask' : runAgentWithRetryGo
            (agentAttempt p.2 (prepareAgentInput req) (some (req.timeout * 1000)) now)
            st.config.maxRetries 0 none = .error e' := htask
        rcases runAgentWithRetryGo_error_shape _ _ _ _ _ htask' with ⟨j, hj⟩ | habs | hdef
        · rw [(agentAttempt_error_busy hj).1]
          decide
        · exact Option.noConfusion habs
        · rw [hdef]
          decide

/-- Witness for `runAnalysis_no_agents`: no registered agents at all. -/
theorem runAnalysis_no_agents_witness :
    getRequiredAgents emptyOrchestrator.agents sentimentRequest.analysisTypes = [] ∧
    runAnalysis emptyOrchestrator sentimentRequest 0 0 =
      (emptyOrchestrator, .error "No suitable agents found for the requested analysis types") :=
  ⟨rfl, (runAnalysis_no_agents emptyOrchestrator sentimentRequest 0 0).1 rfl⟩

/-- C6: when a requested kind maps to a registered Agent that always fulfils
with a successful result carrying payload `d` (and every registered agent is
free to take its first attempt), `runAnalysis` resolves with `success=true`
and the aggregate holds `d` under that Agent's kind. -/
theorem runAnalysis_success_includes_data (st : OrchestratorState)
    (req : AnalysisRequest) (now dur : Nat) (ty : AnalysisType)
    (ag : AgentBehavior) (d : Data)
    (hmr : 0 < st.config.maxRetries)
    (hfresh : ∀ p ∈ st.agents, p.2.busy 0 = false)
    (hty : ty ∈ req.analysisTypes)
    (hag : mapGet st.agents (analysisTypeToAgentType ty) = some ag)
    (hnb : ∀ i, ag.busy i = false)
    (hnt : ∀ i, ag.timedOut i = false)
    (hout : ∀ i, ∃ r, ag.outcomes i = .ret r ∧ r.success = true ∧ r.data = d) :
    ∃ st' resp, runAnalysis st req now dur = (st', Except.ok resp) ∧
      resp.success = true ∧
      mapGet resp.results (analysisTypeToAgentType ty) = some d := by
  have hreqget : mapGet (getRequiredAgents st.agents req.analysisTypes)
      (analysisTypeToAgentType ty) = some ag :=
    getRequiredAgentsGo_hit st.agents hag req.analysisTypes [] hty
  have hne : getRequiredAgents st.agents req.analysisTypes ≠ [] := by
    intro h
    rw [h] at hreqget
    exact Option.noConfusion hreqget
  obtain ⟨rs, resp, st', hf', hrun, hsucc, hres⟩ :=
    runAnalysis_fresh_ok st req now dur hmr hfresh hne
  refine ⟨st', resp, hrun, hsucc, ?_⟩
  have hmem : (analysisTypeToAgentType ty, ag) ∈ getRequiredAgents st.agents req.analysisTypes :=
    mapGet_mem hreqget
  obtain ⟨r2, htask, hzip⟩ := forall₂_mem_zip hf' hmem
  obtain ⟨r0, hr0, hs0, hd0⟩ := hout 0
  have hat : agentAttempt ag (prepareAgentInput req) (some (req.timeout * 1000)) now 0 =
      .ok { r0 with executionTime := (ag.durationMs 0 : Rat) / 1000 } :=
    agentAttempt_ok_value (hnb 0) (hnt 0) hr0
  have htask2 : runAgentWithRetry st.config.maxRetries
      (agentAttempt ag (prepareAgentInput req) (some (req.timeout * 1000)) now) =
      .ok { r0 with executionTime := (ag.durationMs 0 : Rat) / 1000 } :=
    runAgentWithRetry_first_ok hat hmr
  have htask3 : runAgentWithRetry st.config.maxRetries
      (agentAttempt ag (prepareAgentInput req) (some (req.timeout * 1000)) now) =
      Except.ok r2 := htask
  have hr2 : r2 = { r0 with executionTime := (ag.durationMs 0 : Rat) / 1000 } :=
    Except.ok.inj (htask3.symm.trans htask2)
  have hlen : (getRequiredAgents st.agents req.analysisTypes).length = rs.length :=
    hf'.length_eq
  have hmemzip : (analysisTypeToAgentType ty, r2) ∈
      ((getRequiredAgents st.agents req.analysisTypes).map Prod.fst).zip rs := by
    rw [List.zip_map_left]
    exact List.mem_map.mpr ⟨((analysisTypeToAgentType ty, ag), r2), hzip, rfl⟩
  have hle : ((getRequiredAgents st.agents req.analysisTypes).map Prod.fst).length ≤ rs.length := by
    rw [List.length_map, hlen]
  have hnd : (((((getRequiredAgents st.agents req.analysisTypes).map Prod.fst).zip rs)).map
      Prod.fst).Nodup := by
    rw [List.map_fst_zip _ _ hle]
    exact getRequiredAgentsGo_nodup st.agents req.analysisTypes [] (by simp)
  rw [hres, simpleAggregation,
    simpleAggregationGo_hit hnd hmemzip (by rw [hr2]; exact hs0) [], hr2]
  exact congrArg some hd0

/-- Witness for `runAnalysis_success_includes_data`: the market agent of the
mixed fixture always succeeds with `{score: 0.8}`. -/
theorem runAnalysis_success_includes_data_witness :
    0 < mixedOrchestrator.config.maxRetries ∧
    AnalysisType.market ∈ sampleRequest.analysisTypes ∧
    (∃ st' resp, runAnalysis mixedOrchestrator sampleRequest 0 0 = (st', Except.ok resp) ∧
      resp.success = true ∧
      mapGet resp.results (analysisTypeToAgentType .market) = some [("score", "0.8")]) :=
  ⟨by decide, by decide,
    runAnalysis_success_includes_data mixedOrchestrator sampleRequest 0 0 .market
      alwaysSucceedingAgent [("score", "0.8")] (by decide)
      (by decide) (by decide) rfl (fun _ => rfl) (fun _ => rfl)
      (fun _ => ⟨sampleResult, rfl, rfl, rfl⟩)⟩

/-- C7: a requested kind with no registered Agent is silently dropped: it
does not appear among the resolved agents, the run still resolves (no error
is raised for it) as long as another requested kind resolves, and the
aggregate holds no entry under the unmapped kind. -/
theorem unmapped_kinds_silently_dropped (st : OrchestratorState)
    (req : AnalysisRequest) (now dur : Nat) (bad good : AnalysisType)
    (ag : AgentBehavior)
    (hmr : 0 < st.config.maxRetries)
    (hfresh : ∀ p ∈ st.agents, p.2.busy 0 = false)
    (_hbadmem : bad ∈ req.analysisTypes)
    (hbad : mapGet st.agents (analysisTypeToAgentType bad) = none)
    (hgoodmem : good ∈ req.analysisTypes)
    (hgood : mapGet st.agents (analysisTypeToAgentType good) = some ag) :
    mapGet (getRequiredAgents st.agents req.analysisTypes)
      (analysisTypeToAgentType bad) = none ∧
    ∃ st' resp, runAnalysis st req now dur = (st', Except.ok resp) ∧
      mapGet resp.results (analysisTypeToAgentType bad) = none := by
  have h1 : mapGet (getRequiredAgents st.agents req.analysisTypes)
      (analysisTypeToAgentType bad) = none :=
    getRequiredAgentsGo_none st.agents hbad req.analysisTypes []
  have hreqget : mapGet (getRequiredAgents st.agents req.analysisTypes)
      (analysisTypeToAgentType good) = some ag :=
    getRequiredAgentsGo_hit st.agents hgood req.analysisTypes [] hgoodmem
  have hne : getRequiredAgents st.agents req.analysisTypes ≠ [] := by
    intro h
    rw [h] at hreqget
    exact Option.noConfusion hreqget
  obtain ⟨rs, resp, st', hf', hrun, _, hres⟩ :=
    runAnalysis_fresh_ok st req now dur hmr hfresh hne
  refine ⟨h1, st', resp, hrun, ?_⟩
  have hle : ((getRequiredAgents st.agents req.analysisTypes).map Prod.fst).length ≤ rs.length := by
    rw [List.length_map, hf'.length_eq]
  have hkeys : analysisTypeToAgentType bad ∉
      ((((getRequiredAgents st.agents req.analysisTypes).map Prod.fst).zip rs).map Prod.fst) := by
    rw [List.map_fst_zip _ _ hle]
    intro hk
    obtain ⟨v, hv⟩ := exists_mapGet_of_mem_keys hk
    rw [h1] at hv
    exact Option.noConfusion hv
  rw [hres, simpleAggregation, simpleAggregationGo_absent hkeys []]
  rfl

/-- Witness for `unmapped_kinds_silently_dropped`: a request naming the
unregistered `pricing` kind and the registered `market` kind. -/
theorem unmapped_kinds_silently_dropped_witness :
    AnalysisType.pricing ∈ unmappedRequest.analysisTypes ∧
    mapGet mixedOrchestrator.agents (analysisTypeToAgentType .pricing) = none ∧
    (mapGet (getRequiredAgents mixedOrchestrator.agents unmappedRequest.analysisTypes)
      (analysisTypeToAgentType .pricing) = none ∧
    ∃ st' resp, runAnalysis mixedOrchestrator unmappedRequest 0 0 = (st', Except.ok resp) ∧
      mapGet resp.results (analysisTypeToAgentType .pricing) = none) :=
  ⟨by decide, rfl,
    unmapped_kinds_silently_dropped mixedOrchestrator unmappedRequest 0 0 .pricing .market
      alwaysSucceedingAgent (by decide) (by decide) (by decide) rfl (by decide) rfl⟩

/-- C1 counterexample: the sentiment agent's `process` rejects on every
attempt (`"boom"`, i.e. more than `maxRetries+1` failures available) while
the sibling market agent always succeeds — yet `runAnalysis` RESOLVES with
`success=true` and a partial aggregate holding only the market data, because
`BaseAgent.run` converts the process failures into resolved
`{success:false}` results that the retry loop accepts on the first attempt
and the aggregation silently omits. -/
theorem all_or_nothing_counterexample :
    (∀ i, alwaysThrowingAgent.outcomes i = .exn "boom") ∧
    (runAnalysis mixedOrchestrator sampleRequest 0 0).2.toOption.map
        (fun resp => (resp.success, mapGet resp.results AgentType.sentiment,
          mapGet resp.results AgentType.market)) =
      some (true, none, some [("score", "0.8")]) :=
  ⟨fun _ => rfl, by decide⟩

/-- C1 amended: retry exhaustion propagates only for rejections of
`agent.run` itself — with the `BaseAgent` wrapper that is the busy guard. If
a resolved Agent's `run` rejects on every attempt of the budget
(`maxRetries` total attempts), the whole `runAnalysis` call rejects with
that Agent's rejection and returns no aggregate, leaving the state (and so
the cache) unchanged, whatever every sibling Agent does; an Agent whose
`process` merely fails every attempt is instead soft-failed into a resolved
run (see the counterexample). -/
theorem runAnalysis_rejects_when_agent_always_busy (st : OrchestratorState)
    (req : AnalysisRequest) (now dur : Nat) (ty : AnalysisType) (ag : AgentBehavior)
    (hmr : 0 < st.config.maxRetries)
    (hty : ty ∈ req.analysisTypes)
    (hag : mapGet st.agents (analysisTypeToAgentType ty) = some ag)
    (hbusy : ∀ i, ag.busy i = true) :
    runAnalysis st req now dur = (st, .error "Agent is already running") := by
  have hreqget : mapGet (getRequiredAgents st.agents req.analysisTypes)
      (analysisTypeToAgentType ty) = some ag :=
    getRequiredAgentsGo_hit st.agents hag req.analysisTypes [] hty
  have h0 : ¬ (getRequiredAgents st.agents req.analysisTypes).length = 0 := by
    intro h
    rw [List.length_eq_zero.mp h] at hreqget
    exact Option.noConfusion hreqget
  have htask : runAgentWithRetry st.config.maxRetries
      (agentAttempt ag (prepareAgentInput req) (some (req.timeout * 1000)) now) =
      .error "Agent is already running" :=
    runAgentWithRetryGo_all_error
      (fun i => agentAttempt_busy_value (hbusy i)) st.config.maxRetries 0 none hmr
  have hmemtask : Except.error (ε := String) (α := AgentResult) "Agent is already running" ∈
      (getRequiredAgents st.agents req.analysisTypes).map fun p =>
        runAgentWithRetry st.config.maxRetries
          (agentAttempt p.2 (prepareAgentInput req) (some (req.timeout * 1000)) now) :=
    List.mem_map.mpr ⟨(analysisTypeToAgentType ty, ag), mapGet_mem hreqget, htask⟩
  have hall : ∀ x ∈ (getRequiredAgents st.agents req.analysisTypes).map fun p =>
        runAgentWithRetry st.config.maxRetries
          (agentAttempt p.2 (prepareAgentInput req) (some (req.timeout * 1000)) now),
      x = Except.error "Agent is already running" ∨ ∃ r, x = Except.ok r := by
    intro x hx
    obtain ⟨p, _, hxp⟩ := List.mem_map.mp hx
    subst hxp
    exact runAgentWithRetryGo_dichotomy
      (fun i e he => (agentAttempt_error_busy he).1) st.config.maxRetries 0 none hmr
  have hps := promiseAll_error_of_mem hmemtask hall
  simp only [runAnalysis]
  rw [if_neg h0, hps]

/-- Witness for `runAnalysis_rejects_when_agent_always_busy`: the sentiment
agent of the busy fixture is stuck busy; its sibling succeeds. -/
theorem runAnalysis_rejects_when_agent_always_busy_witness :
    0 < busyOrchestrator.config.maxRetries ∧
    (∀ i, alwaysBusyAgent.busy i = true) ∧
    runAnalysis busyOrchestrator sampleRequest 0 0 =
      (busyOrchestrator, .error "Agent is already running") :=
  ⟨by decide, fun _ => rfl,
    runAnalysis_rejects_when_agent_always_busy busyOrchestrator sampleRequest 0 0
      .sentiment alwaysBusyAgent (by decide) (by decide) rfl (fun _ => rfl)⟩

/-- C2 counterexample: with the default `maxRetries = 3`, an attempt
sequence rejecting on exactly the first three attempts and fulfilling on
attempt four (`maxRetries+1`) makes the retry loop reject — the loop stops
after `maxRetries` total attempts and never reaches the would-be success. -/
theorem retry_budget_counterexample :
    defaultConfig.maxRetries = 3 ∧
    threeFailAttempts 0 = .error "boom" ∧
    threeFailAttempts 1 = .error "boom" ∧
    threeFailAttempts 2 = .error "boom" ∧
    threeFailAttempts 3 = .ok sampleResult ∧
    runAgentWithRetry 3 threeFailAttempts = .error "boom" :=
  ⟨rfl, rfl, rfl, rfl, rfl, rfl⟩

/-- C2 amended: the retry loop performs up to `maxRetries` total attempts
(not `maxRetries+1`): an agent whose run rejects on the first `k` attempts
and fulfils on attempt `k+1`, for any `k < maxRetries`, yields that success
— in particular failing `maxRetries-1` times then succeeding succeeds. -/
theorem retry_budget_honored (mr k : Nat)
    (attempt : Nat → Except String AgentResult) (r : AgentResult)
    (hk : k < mr)
    (hfail : ∀ j, j < k → ∃ e, attempt j = .error e)
    (hok : attempt k = .ok r) :
    runAgentWithRetry mr attempt = .ok r := by
  refine runAgentWithRetryGo_budget attempt mr 0 none k r hk ?_ ?_
  · intro j hj
    simpa using hfail j hj
  · simpa using hok

/-- Witness for `retry_budget_honored`: two rejections then a success under
the default budget of three attempts. -/
theorem retry_budget_honored_witness :
    (2 : Nat) < 3 ∧
    twoFailAttempts 2 = .ok sampleResult ∧
    runAgentWithRetry 3 twoFailAttempts = .ok sampleResult :=
  ⟨by decide, rfl,
    retry_budget_honored 3 2 twoFailAttempts sampleResult (by decide)
      (fun j hj => ⟨"boom", by
        have hj' : j = 0 ∨ j = 1 := by omega
        rcases hj' with rfl | rfl <;> rfl⟩) rfl⟩

/-- C8: the weighted and confidence aggregation strategies return exactly
the same aggregate map as the simple strategy, and `aggregateResults` is
extensionally the simple aggregation whatever strategy is configured. -/
theorem aggregation_strategies_agree (agentTypes : List AgentType)
    (results : List AgentResult) :
    weightedAggregation agentTypes results = simpleAggregation agentTypes results ∧
    confidenceAggregation agentTypes results = simpleAggregation agentTypes results ∧
    ∀ m, aggregateResults m agentTypes results = simpleAggregation agentTypes results :=
  ⟨rfl, rfl, fun m => aggregateResults_eq_simple m agentTypes results⟩

/-- C9: a successful `runAnalysis` with caching enabled stores exactly one
entry under the generated analysis id, expiring `cacheTTL` seconds after the
write time (one fresh entry when the id is new); with caching disabled the
cache is untouched whatever the outcome; no `runAnalysis` outcome and no
`registerAgent` call ever removes a cache key; and `cleanup` clears the
cache. -/
theorem cache_effects (st : OrchestratorState) (req : AnalysisRequest)
    (now dur : Nat) (ag : AgentBehavior) :
    (∀ st' resp, runAnalysis st req now dur = (st', Except.ok resp) →
      st.config.cacheEnabled = true →
      st'.resultsCache =
        mapSet st.resultsCache (analysisIdOf now req.projectId)
          (⟨resp.results, now + dur, now + dur + st.config.cacheTTL * 1000⟩ : CacheEntry) ∧
      (analysisIdOf now req.projectId ∉ st.resultsCache.map Prod.fst →
        st'.resultsCache.length = st.resultsCache.length + 1)) ∧
    (st.config.cacheEnabled = false →
      ∀ st' out, runAnalysis st req now dur = (st', out) →
        st'.resultsCache = st.resultsCache) ∧
    (∀ st' out, runAnalysis st req now dur = (st', out) →
      ∀ k, k ∈ st.resultsCache.map Prod.fst → k ∈ st'.resultsCache.map Prod.fst) ∧
    (registerAgent st ag).resultsCache = st.resultsCache ∧
    (cleanup st).resultsCache = [] := by
  refine ⟨?_, ?_, ?_, ?_, rfl⟩
  · intro st' resp heq hen
    rcases runAnalysis_cases st req now dur with ⟨_, hcase⟩ | ⟨e, hcase⟩ | ⟨rs, hcase⟩ <;>
      rw [heq] at hcase
    · exact absurd (congrArg Prod.snd hcase) (by simp)
    · exact absurd (congrArg Prod.snd hcase) (by simp)
    · have h1 : st' = successState st req now dur rs := congrArg Prod.fst hcase
      have h2 : resp = successResponse st req now dur rs :=
        Except.ok.inj (congrArg Prod.snd hcase)
      subst h1
      subst h2
      constructor
      · simp [successState, successResponse, hen]
      · intro hfres
        have hre : (successState st req now dur rs).resultsCache =
            mapSet st.resultsCache (analysisIdOf now req.projectId)
              (⟨aggregateResults st.config.resultAggregation
                  ((getRequiredAgents st.agents req.analysisTypes).map Prod.fst) rs,
                now + dur, now + dur + st.config.cacheTTL * 1000⟩ : CacheEntry) := by
          simp [successState, hen]
        rw [hre, length_mapSet_of_not_mem_keys _ hfres]
  · intro hen st' out heq
    rcases runAnalysis_cases st req now dur with ⟨_, hcase⟩ | ⟨e, hcase⟩ | ⟨rs, hcase⟩ <;>
      rw [heq] at hcase
    · have h1 : st' = st := congrArg Prod.fst hcase
      rw [h1]
    · have h1 : st' = st := congrArg Prod.fst hcase
      rw [h1]
    · have h1 : st' = successState st req now dur rs := congrArg Prod.fst hcase
      rw [h1]
      simp [successState, hen]
  · intro st' out heq k hk
    rcases runAnalysis_cases st req now dur with ⟨_, hcase⟩ | ⟨e, hcase⟩ | ⟨rs, hcase⟩ <;>
      rw [heq] at hcase
    · have h1 : st' = st := congrArg Prod.fst hcase
      rw [h1]; exact hk
    · have h1 : st' = st := congrArg Prod.fst hcase
      rw [h1]; exact hk
    · have h1 : st' = successState st req now dur rs := congrArg Prod.fst hcase
      rw [h1]
      by_cases hen : st.config.cacheEnabled
      · have hre : (successState st req now dur rs).resultsCache =
            mapSet st.resultsCache (analysisIdOf now req.projectId)
              (⟨aggregateResults st.config.resultAggregation
                  ((getRequiredAgents st.agents req.analysisTypes).map Prod.fst) rs,
                now + dur, now + dur + st.config.cacheTTL * 1000⟩ : CacheEntry) := by
          simp [successState, hen]
        rw [hre]
        exact mem_keys_mapSet_of_mem_keys _ hk
      · have hre : (successState st req now dur rs).resultsCache = st.resultsCache := by
          simp [successState, hen]
        rw [hre]
        exact hk
  · cases hct : ag.cfgType <;> simp [registerAgent, hct]

/-- Witness for `cache_effects`: with caching disabled, a run against the
no-cache fixture leaves the results cache unchanged. -/
theorem cache_effects_witness :
    noCacheOrchestrator.config.cacheEnabled = false ∧
    (runAnalysis noCacheOrchestrator sampleRequest 0 0).1.resultsCache =
      noCacheOrchestrator.resultsCache :=
  ⟨rfl,
    (cache_effects noCacheOrchestrator sampleRequest 0 0 alwaysSucceedingAgent).2.1 rfl
      (runAnalysis noCacheOrchestrator sampleRequest 0 0).1
      (runAnalysis noCacheOrchestrator sampleRequest 0 0).2 rfl⟩

/-- C10: the constructor's `||` defaulting treats a present `0` as absent:
each numeric field passed as 0 is silently replaced by its default (3, 3600,
30000, 5), and in particular no caller can configure zero retries. -/
theorem zero_config_values_replaced (p : PartialOrchestrationConfig) :
    (mkConfig p).maxRetries ≠ 0 ∧
    (p.maxRetries = some 0 → (mkConfig p).maxRetries = 3) ∧
    (p.cacheTTL = some 0 → (mkConfig p).cacheTTL = 3600) ∧
    (p.agentTimeout = some 0 → (mkConfig p).agentTimeout = 30000) ∧
    (p.maxConcurrentAgents = some 0 → (mkConfig p).maxConcurrentAgents = 5) := by
  refine ⟨?_, ?_, ?_, ?_, ?_⟩
  · show jsOrNat p.maxRetries 3 ≠ 0
    cases hp : p.maxRetries with
    | none => simp [jsOrNat]
    | some v =>
        by_cases hv : v = 0 <;> simp [jsOrNat, hv]
  · intro h
    simp [mkConfig, jsOrNat, h]
  · intro h
    simp [mkConfig, jsOrNat, h]
  · intro h
    simp [mkConfig, jsOrNat, h]
  · intro h
    simp [mkConfig, jsOrNat, h]

/-- Witness for `zero_config_values_replaced`: all four numeric fields
passed as 0 come back as the defaults. -/
theorem zero_config_values_replaced_witness :
    zeroPartialConfig.maxRetries = some 0 ∧
    (mkConfig zeroPartialConfig).maxRetries = 3 ∧
    (mkConfig zeroPartialConfig).cacheTTL = 3600 ∧
    (mkConfig zeroPartialConfig).agentTimeout = 30000 ∧
    (mkConfig zeroPartialConfig).maxConcurrentAgents = 5 :=
  ⟨rfl, (zero_config_values_replaced zeroPartialConfig).2.1 rfl,
    (zero_config_values_replaced zeroPartialConfig).2.2.1 rfl,
    (zero_config_values_replaced zeroPartialConfig).2.2.2.1 rfl,
    (zero_config_values_replaced zeroPartialConfig).2.2.2.2 rfl⟩

end ClaimTheorems

end AgenticWorkflows
